import Mathlib

/-!
A shallow embedding of the session-coordination core of
src/preview-content-provider.ts (class MarkdownPreviewEnhancedView).

Modelling choices, used consistently below:
* JS strings are lists of characters (`Str`); a document is a list of lines.
* JS numbers arising from integer arithmetic and division are rationals,
  extended with explicit NaN and signed-infinity values where the source can
  divide by zero (`JSNum`), or with null/undefined where the source receives
  arbitrary values (`JSVal`).
* The mutable session object is passed as explicit state; asynchronous
  results (promise resolutions/rejections) are passed in as `Except` values;
  observable actions (messages posted to the webview, notifications) are
  returned as explicit effect lists.
* A JS runtime TypeError (reading a property of `undefined`, e.g. indexing
  an array outside its bounds) is modelled as `none` of an `Option` result.
-/

namespace MPE

/-- A JS string, as its list of characters. -/
abbrev Str := List Char

/-- A document line. -/
abbrev Line := List Char

/-- JS s.indexOf(pat) >= 0: does pat occur as a contiguous substring of s. -/
def containsSub : Str → Str → Bool
  | [], pat => pat.isEmpty
  | c :: rest, pat => List.isPrefixOf pat (c :: rest) || containsSub rest pat

/-- JS s.replace(pat, rep) with a nonempty string pattern: replace the first
occurrence of pat only; s is unchanged when pat does not occur. -/
def replaceFirstSub : Str → Str → Str → Str
  | [], _, _ => []
  | c :: rest, pat, rep =>
    if List.isPrefixOf pat (c :: rest) then rep ++ List.drop pat.length (c :: rest)
    else c :: replaceFirstSub rest pat rep

/-- Accumulator loop for lastIndexOfCh: i is the index of the head of the
remaining list, best the last index of c seen so far (or -1). -/
def lastIndexAux (c : Char) : Str → ℤ → ℤ → ℤ
  | [], _, best => best
  | x :: rest, i, best => lastIndexAux c rest (i + 1) (if x = c then i else best)

/-- JS s.lastIndexOf(c) for a single character c: the index of the last
occurrence, or -1 when c does not occur. -/
def lastIndexOfCh (s : Str) (c : Char) : ℤ := lastIndexAux c s 0 (-1)

/-- JS s.slice(0, e): a take, where a negative e counts from the end. -/
def jsSliceTo (s : Str) (e : ℤ) : Str :=
  if 0 ≤ e then List.take e.toNat s
  else List.take (s.length - (-e).toNat) s

/-- A JS number that can result from dividing integers: an ordinary
(rational) value, NaN, or a signed infinity. -/
inductive JSNum where
  | nan : JSNum
  | posInf : JSNum
  | negInf : JSNum
  | num : ℚ → JSNum
deriving DecidableEq

/-- JS division a / b: 0/0 is NaN and x/0 for x nonzero is a signed
infinity; otherwise the exact quotient. -/
def jsDiv (a b : ℚ) : JSNum :=
  if b = 0 then
    if a = 0 then JSNum.nan
    else if 0 < a then JSNum.posInf
    else JSNum.negInf
  else JSNum.num (a / b)

/-- The editor viewport rows read inside the cursor handler. -/
structure ViewportState where
  firstVisibleScreenRow : ℤ
  lastVisibleScreenRow : ℤ
deriving DecidableEq

/-- The cursor event payload used by the handler
(event.newScreenPosition.row and event.newBufferPosition.row). -/
structure CursorEvent where
  newScreenRow : ℤ
  newBufferRow : ℤ
deriving DecidableEq

/-- The changeTextEditorSelection message posted to the webview. -/
structure SelMessage where
  line : ℤ
  topRatioNum : JSNum
deriving DecidableEq

/-- The onDidChangeCursorPosition handler installed by initEditorEvents:
returns the posted message, or none when scroll sync is disabled or the
current time is still inside the scroll-suppression window. The quotient
(newScreenRow - firstVisibleScreenRow) / (lastVisibleScreenRow -
firstVisibleScreenRow) is posted as computed, with no clamping and no
divide-by-zero guard. -/
def onDidChangeCursorPosition (scrollSync : Bool) (now editorScrollDelay : ℤ)
    (ev : CursorEvent) (vp : ViewportState) : Option SelMessage :=
  if !scrollSync then none
  else if now < editorScrollDelay then none
  else some ⟨ev.newBufferRow,
    jsDiv ((ev.newScreenRow : ℚ) - (vp.firstVisibleScreenRow : ℚ))
      ((vp.lastVisibleScreenRow : ℚ) - (vp.firstVisibleScreenRow : ℚ))⟩

/-- The words of claim C1 (not the code): the quotient clamped to [0,1],
with value 0 when the divisor is zero. Stated only to be compared with
onDidChangeCursorPosition. -/
def topRatioClaimC1 (screenRow firstRow lastRow : ℤ) : ℚ :=
  if lastRow = firstRow then 0
  else min 1 (max 0 (((screenRow : ℚ) - (firstRow : ℚ)) / ((lastRow : ℚ) - (firstRow : ℚ))))

/-- A JS value as received by setZoomLevel from the message channel. -/
inductive JSVal where
  | undef : JSVal
  | jsNull : JSVal
  | nan : JSVal
  | num : ℚ → JSVal
deriving DecidableEq

/-- JS truthiness for JSVal: undefined, null, NaN and 0 are falsy. -/
def truthy : JSVal → Bool
  | JSVal.undef => false
  | JSVal.jsNull => false
  | JSVal.nan => false
  | JSVal.num q => decide (q ≠ 0)

/-- setZoomLevel: this.zoomLevel = zoomLevel || 1. The setZoomLevel entry of
MESSAGE_DISPATCH_EVENTS forwards its zoomLevel argument here unchanged. -/
def setZoomLevel (zoomLevel : JSVal) : JSVal :=
  if truthy zoomLevel then zoomLevel else JSVal.num 1

/-- Lookup in the process-wide engine map, modelled as an association list
with the newest binding first. -/
def lookupEngine : List (String × ℕ) → String → Option ℕ
  | [], _ => none
  | (k, v) :: rest, key => if k = key then some v else lookupEngine rest key

/-- MARKDOWN_ENGINES_MAP together with a supply of fresh engine ids;
constructing a MarkdownEngine consumes the next id, so distinct
constructions yield distinct engine references. -/
structure EngineCache where
  table : List (String × ℕ)
  nextId : ℕ
deriving DecidableEq

/-- Result of the engine-lookup step of initEvents. -/
structure EngineResult where
  engine : ℕ
  cache : EngineCache
  constructed : Bool
deriving DecidableEq

/-- The engine-lookup step of initEvents: if editor.getPath() is a key of
MARKDOWN_ENGINES_MAP use the stored engine, else construct a new
MarkdownEngine and store it under that key. -/
def getOrCreateEngine (c : EngineCache) (key : String) : EngineResult :=
  match lookupEngine c.table key with
  | some e => ⟨e, c, false⟩
  | none => ⟨c.nextId, ⟨(key, c.nextId) :: c.table, c.nextId + 1⟩, true⟩

/-- JS line.replace(/bracketed x or X/, unchecked box), i.e. replace the
first occurrence of the three-character token "[x]" or "[X]". -/
def replaceFirstXBox : Line → Line
  | [] => []
  | c :: rest =>
    if List.isPrefixOf ("[x]".data) (c :: rest) || List.isPrefixOf ("[X]".data) (c :: rest) then
      ("[ ]".data) ++ List.drop 2 rest
    else c :: replaceFirstXBox rest

/-- One application of the clickTaskListCheckbox line rewrite: if the line
contains "[ ]" replace its first occurrence by "[x]", else replace the
first "[x]" or "[X]" by "[ ]". -/
def toggleLine (line : Line) : Line :=
  if containsSub line ("[ ]".data) then replaceFirstSub line ("[ ]".data) ("[x]".data)
  else replaceFirstXBox line

/-- The clickTaskListCheckbox handler on the document's lines: rewrites the
indicated line in place via setTextInRange; none models the TypeError when
dataLine is outside the document (buffer.lines[dataLine] is undefined). -/
def clickTaskListCheckbox (lines : List Line) (dataLine : ℕ) : Option (List Line) :=
  if dataLine < lines.length then
    some (List.set lines dataLine (toggleLine (List.getD lines dataLine [])))
  else none

/-- The editor readings used by syncPreview; bufferRowForScreenRow is the
editor's screen-to-buffer row mapping. -/
structure EditorView where
  firstVisibleScreenRow : ℕ
  lastVisibleScreenRow : ℕ
  lastScreenRow : ℕ
  lastBufferRow : ℕ
  bufferRowForScreenRow : ℕ → ℕ

/-- syncPreview: the (line, topRatio) pair of the changeTextEditorSelection
message posted to the webview. -/
def syncPreview (e : EditorView) : ℕ × ℚ :=
  if e.firstVisibleScreenRow = 0 then (0, 0)
  else if e.lastVisibleScreenRow = e.lastScreenRow then (e.lastBufferRow, 1)
  else (e.bufferRowForScreenRow ((e.lastVisibleScreenRow + e.firstVisibleScreenRow) / 2), 1 / 2)

/-- The fields of the parseMD resolution value used by renderMarkdown. -/
structure ParseResult where
  html : Str
  tocHTML : Str
  JSAndCssFiles : List String
  yamlIsPresentationMode : Bool
  yamlId : Str
  yamlClass : Str
deriving DecidableEq

/-- The session fields renderMarkdown reads and writes. -/
structure RenderSession where
  JSAndCssFiles : List String
  isPreviewInPresentationMode : Bool
deriving DecidableEq

/-- The observable actions of renderMarkdown: messages posted to the
webview, a full reload of the preview, or a user-visible error
notification (which renderMarkdown itself never emits). -/
inductive Effect where
  | startParsingMarkdown : Effect
  | loadPreview : Effect
  | updateHTML (html tocHTML : Str) (totalLineCount : ℕ) (sourceUri : String)
      (idMeta classMeta : Str) : Effect
  | notifyErr (msg : String) : Effect
deriving DecidableEq

/-- True exactly for error-notification effects. -/
def Effect.isNotifyErr : Effect → Bool
  | Effect.notifyErr _ => true
  | _ => false

/-- Modelled from the spec: mume.utility.isArrayEqual is code of the
external mume package and is not part of this repository; per the spec the
dependency lists are "Compared by set-equality (order-insensitive)",
modelled here as permutation equivalence of the two lists. -/
def isArrayEqual (a b : List String) : Bool := List.isPerm a b

/-- renderMarkdown (with the editor bound), given the outcome of the
asynchronous parseMD call. The parseMD promise has a then-handler and no
catch-handler, so on a rejection nothing further runs. Returns the session
afterwards and the emitted effects, in order. -/
def renderMarkdown (sess : RenderSession) (parseOutcome : Except String ParseResult)
    (totalLineCount : ℕ) (sourceUri : String) : RenderSession × List Effect :=
  if sess.isPreviewInPresentationMode then (sess, [Effect.loadPreview])
  else
    match parseOutcome with
    | Except.error _ => (sess, [Effect.startParsingMarkdown])
    | Except.ok r =>
      if !isArrayEqual r.JSAndCssFiles sess.JSAndCssFiles || r.yamlIsPresentationMode then
        (⟨r.JSAndCssFiles, sess.isPreviewInPresentationMode⟩,
          [Effect.startParsingMarkdown, Effect.loadPreview])
      else
        (sess, [Effect.startParsingMarkdown,
          Effect.updateHTML r.html r.tocHTML totalLineCount sourceUri r.yamlId r.yamlClass])

/-- replaceHint: replace hint in document line bufferRow; the Bool reports
whether a replacement happened. none models the TypeError thrown when
bufferRow is outside the document (buffer.lines[bufferRow] is undefined,
and undefined.indexOf throws). -/
def replaceHint (lines : List Line) (bufferRow : ℤ) (hint withStr : Str) :
    Option (List Line × Bool) :=
  if 0 ≤ bufferRow ∧ bufferRow < (lines.length : ℤ) then
    if containsSub (List.getD lines bufferRow.toNat []) hint then
      some (List.set lines bufferRow.toNat
        (replaceFirstSub (List.getD lines bufferRow.toNat []) hint withStr), true)
    else some (lines, false)
  else none

/-- The while loop of setUploadedImageURL: try rows i, i+1, i+2, ... for
fuel iterations, stopping at the first row where a replacement happens. -/
def searchLoop (hint withStr : Str) : List Line → ℤ → ℕ → Option (List Line)
  | lines, _, 0 => some lines
  | lines, i, fuel + 1 =>
    match replaceHint lines i hint withStr with
    | none => none
    | some (lines1, true) => some lines1
    | some (_, false) => searchLoop hint withStr lines (i + 1) fuel

/-- The description computed in setUploadedImageURL: slice(0, lastIndexOf)
whenever lastIndexOf is truthy, i.e. any value other than 0, including the
-1 of a dotless name (a JS quirk: slice(0, -1) then drops the last char). -/
def uploadDescription (imageFileName : Str) : Str :=
  if lastIndexOfCh imageFileName '.' ≠ 0 then
    jsSliceTo imageFileName (lastIndexOfCh imageFileName '.')
  else imageFileName

/-- The markdown image reference built in setUploadedImageURL. -/
def uploadWithStr (imageFileName url : Str) : Str :=
  ("![".data) ++ uploadDescription imageFileName ++ ("](".data) ++ url ++ (")".data)

/-- setUploadedImageURL: try the recorded insertion row first; if the hint
is not on that line, scan rows bufferRow-20 up to bufferRow+20 in
increasing order (41 loop iterations). -/
def setUploadedImageURL (lines : List Line) (imageFileName url hint : Str)
    (bufferRow : ℤ) : Option (List Line) :=
  match replaceHint lines bufferRow hint (uploadWithStr imageFileName url) with
  | none => none
  | some (lines1, true) => some lines1
  | some (_, false) =>
    searchLoop hint (uploadWithStr imageFileName url) lines (bufferRow - 20) 41

/-- The outcome of the filename-collision branch of pasteImageFile: the
final destination filename and the human-readable description used in the
inserted markdown reference. -/
structure PasteResult where
  imageFileName : Str
  description : Str
deriving DecidableEq

/-- The file-existed branch of pasteImageFile: uid is an underscore plus
the random base36 digits; when the filename's last dot is at a positive
offset the uid is spliced in before the extension and the description is
the stem, else the uid is appended and the description is the whole name. -/
def pasteCollision (imageFileName : Str) (rand : Str) : PasteResult :=
  if 0 < lastIndexOfCh imageFileName '.' then
    ⟨List.take (lastIndexOfCh imageFileName '.').toNat imageFileName
        ++ ('_' :: rand)
        ++ List.drop (lastIndexOfCh imageFileName '.').toNat imageFileName,
      List.take (lastIndexOfCh imageFileName '.').toNat imageFileName⟩
  else
    ⟨imageFileName ++ ('_' :: rand), imageFileName⟩

/-- The session fields touched by scrollToBufferPosition. -/
structure ScrollSession where
  editorScrollDelay : ℤ
  scrollTimeout : Option ℕ
deriving DecidableEq

/-- The helper recursion of scrollToBufferPosition, with exact arithmetic:
each tick moves the offset by (target - current) / duration * delay with
delay = 10, stops early when the stepped offset equals the target exactly,
and otherwise recurses with duration - 10, setting the offset to the
target outright once duration reaches 0. Returns the final scroll offset
and the number of timer ticks taken. -/
def animate (scrollTop cur : ℚ) (duration : ℤ) : ℚ × ℕ :=
  if duration ≤ 0 then (scrollTop, 1)
  else if cur + (scrollTop - cur) / (duration : ℚ) * 10 = scrollTop then
    (cur + (scrollTop - cur) / (duration : ℚ) * 10, 1)
  else
    ((animate scrollTop (cur + (scrollTop - cur) / (duration : ℚ) * 10) (duration - 10)).1,
      (animate scrollTop (cur + (scrollTop - cur) / (duration : ℚ) * 10) (duration - 10)).2 + 1)
termination_by duration.toNat
decreasing_by
  all_goals
    simp_wf
    omega

/-- scrollToBufferPosition (with the editor bound): none when row < 0;
otherwise it extends the scroll-suppression deadline to now + 500, clears
any pending animation timer, computes the target offset screenRow *
lineHeight - viewHeight / 2 and starts the 120-duration animation.
screenRow is the editor's screen row for the requested buffer row, and
fresh is the handle of the newly scheduled timer. Returns the updated
session, the cancelled timer handles, and the animation outcome. -/
def scrollToBufferPosition (sess : ScrollSession) (now row : ℤ) (fresh : ℕ)
    (screenRow lineHeight viewHeight curTop : ℚ) :
    Option (ScrollSession × List ℕ × (ℚ × ℕ)) :=
  if row < 0 then none
  else
    some (⟨now + 500, some fresh⟩,
      (match sess.scrollTimeout with
        | some t => [t]
        | none => []),
      animate (screenRow * lineHeight - viewHeight / 2) curTop 120)

end MPE

/-! ## Helper lemmas -/

theorem listGetDSetSelf {α : Type} (d : α) (l : List α) (i : ℕ) (a : α) (h : i < l.length) :
    List.getD (List.set l i a) i d = a := by
  simp [List.getD_eq_getElem?_getD, List.getElem?_set_self h]

theorem listGetDSetNe {α : Type} (d : α) (l : List α) (i j : ℕ) (a : α) (hne : i ≠ j) :
    List.getD (List.set l i a) j d = List.getD l j d := by
  simp [List.getD_eq_getElem?_getD, List.getElem?_set_ne hne]

theorem listSetGetDSelf {α : Type} (d : α) :
    ∀ (l : List α) (i : ℕ), i < l.length → List.set l i (List.getD l i d) = l := by
  intro l
  induction l with
  | nil => intro i h; simp at h
  | cons x xs ih =>
    intro i h
    cases i with
    | zero => simp
    | succ n =>
      simp only [List.set, List.getD_cons_succ, List.cons.injEq, true_and]
      exact ih n (by simpa using h)

/-! ## Claim theorems -/

/-- C5: the engine-lookup step of initEvents constructs at most one engine
per document identity: when the key is absent the lookup constructs and
stores a fresh engine, and any lookup on the resulting cache with the same
key returns that identical engine reference, constructs nothing, and
leaves the cache unchanged. -/
theorem c5_engine_cache_idempotent (c : MPE.EngineCache) (key : String) :
    (MPE.lookupEngine c.table key = none →
      (MPE.getOrCreateEngine c key).constructed = true ∧
      (MPE.getOrCreateEngine c key).engine = c.nextId) ∧
    (MPE.getOrCreateEngine (MPE.getOrCreateEngine c key).cache key).engine
      = (MPE.getOrCreateEngine c key).engine ∧
    (MPE.getOrCreateEngine (MPE.getOrCreateEngine c key).cache key).constructed = false ∧
    (MPE.getOrCreateEngine (MPE.getOrCreateEngine c key).cache key).cache
      = (MPE.getOrCreateEngine c key).cache := by
  cases h : MPE.lookupEngine c.table key with
  | none => simp [MPE.getOrCreateEngine, MPE.lookupEngine, h]
  | some e => simp [MPE.getOrCreateEngine, h]

/-- Witness for C5: on an empty cache the first lookup for a key
constructs, and the second lookup for the same key does not and returns
the same engine. -/
theorem c5_engine_cache_idempotent_witness :
    (MPE.getOrCreateEngine (⟨[], 0⟩ : MPE.EngineCache) ("a.md")).constructed = true ∧
    (MPE.getOrCreateEngine
      (MPE.getOrCreateEngine (⟨[], 0⟩ : MPE.EngineCache) ("a.md")).cache
      ("a.md")).constructed = false ∧
    (MPE.getOrCreateEngine
      (MPE.getOrCreateEngine (⟨[], 0⟩ : MPE.EngineCache) ("a.md")).cache
      ("a.md")).engine
      = (MPE.getOrCreateEngine (⟨[], 0⟩ : MPE.EngineCache) ("a.md")).engine :=
  ⟨((c5_engine_cache_idempotent (⟨[], 0⟩ : MPE.EngineCache) ("a.md")).1 rfl).1,
    (c5_engine_cache_idempotent (⟨[], 0⟩ : MPE.EngineCache) ("a.md")).2.2.1,
    (c5_engine_cache_idempotent (⟨[], 0⟩ : MPE.EngineCache) ("a.md")).2.1⟩

/-- C6: on a document line equal to the unchecked task line, the
clickTaskListCheckbox handler rewrites it to the checked form, applying
the handler again rewrites it back (double toggle is the identity on such
a line), and in both applications every other line is unchanged. -/
theorem c6_task_checkbox_toggle (lines : List MPE.Line) (i : ℕ) (h : i < lines.length)
    (he : List.getD lines i [] = ("- [ ] todo".data)) :
    ∃ lines1, MPE.clickTaskListCheckbox lines i = some lines1 ∧
      List.getD lines1 i [] = ("- [x] todo".data) ∧
      (∀ j : ℕ, j ≠ i → List.getD lines1 j [] = List.getD lines j []) ∧
      MPE.clickTaskListCheckbox lines1 i = some lines := by
  have ht1 : MPE.toggleLine ("- [ ] todo".data) = ("- [x] todo".data) := by decide
  have ht2 : MPE.toggleLine ("- [x] todo".data) = ("- [ ] todo".data) := by decide
  refine ⟨List.set lines i ("- [x] todo".data), ?_, ?_, ?_, ?_⟩
  · unfold MPE.clickTaskListCheckbox
    rw [if_pos h, he, ht1]
  · exact listGetDSetSelf [] lines i _ h
  · intro j hj
    exact listGetDSetNe [] lines i j _ (fun hh => hj hh.symm)
  · have hlen : i < (List.set lines i ("- [x] todo".data)).length := by simpa using h
    have hget : List.getD (List.set lines i ("- [x] todo".data)) i [] = ("- [x] todo".data) :=
      listGetDSetSelf [] lines i _ h
    unfold MPE.clickTaskListCheckbox
    rw [if_pos hlen, hget, ht2, List.set_set, ← he]
    exact congrArg some (listSetGetDSelf [] lines i h)

/-- Witness for C6 on a concrete two-line document. -/
theorem c6_task_checkbox_toggle_witness :
    ∃ lines1,
      MPE.clickTaskListCheckbox [("# title".data), ("- [ ] todo".data)] 1 = some lines1 ∧
      List.getD lines1 1 [] = ("- [x] todo".data) ∧
      (∀ j : ℕ, j ≠ 1 →
        List.getD lines1 j [] = List.getD [("# title".data), ("- [ ] todo".data)] j []) ∧
      MPE.clickTaskListCheckbox lines1 1 = some [("# title".data), ("- [ ] todo".data)] :=
  c6_task_checkbox_toggle [("# title".data), ("- [ ] todo".data)] 1 (by decide) (by decide)

/-- C7: syncPreview implements the ternary snap policy, the top case
taking precedence: first visible screen row 0 emits line 0 with ratio 0;
else a last visible screen row equal to the document's last screen row
emits the last buffer row with ratio 1; else it emits the buffer row of
the midpoint screen row floor((last + first) / 2) with ratio one half. -/
theorem c7_syncPreview_ternary (e : MPE.EditorView) :
    (e.firstVisibleScreenRow = 0 → MPE.syncPreview e = (0, 0)) ∧
    (e.firstVisibleScreenRow ≠ 0 → e.lastVisibleScreenRow = e.lastScreenRow →
      MPE.syncPreview e = (e.lastBufferRow, 1)) ∧
    (e.firstVisibleScreenRow ≠ 0 → e.lastVisibleScreenRow ≠ e.lastScreenRow →
      MPE.syncPreview e
        = (e.bufferRowForScreenRow ((e.lastVisibleScreenRow + e.firstVisibleScreenRow) / 2),
            1 / 2)) :=
  ⟨fun h1 => by simp [MPE.syncPreview, h1],
    fun h1 h2 => by simp [MPE.syncPreview, h1, h2],
    fun h1 h2 => by simp [MPE.syncPreview, h1, h2]⟩

/-- Witness for C7: the three branches at concrete editor readings. -/
theorem c7_syncPreview_ternary_witness :
    MPE.syncPreview ⟨0, 5, 9, 30, fun n => n⟩ = (0, 0) ∧
    MPE.syncPreview ⟨2, 9, 9, 30, fun n => n⟩ = (30, 1) ∧
    MPE.syncPreview ⟨2, 8, 9, 30, fun n => n + 1⟩ = (6, 1 / 2) :=
  ⟨(c7_syncPreview_ternary ⟨0, 5, 9, 30, fun n => n⟩).1 rfl,
    (c7_syncPreview_ternary ⟨2, 9, 9, 30, fun n => n⟩).2.1 (by decide) rfl,
    (c7_syncPreview_ternary ⟨2, 8, 9, 30, fun n => n + 1⟩).2.2 (by decide) (by decide)⟩

/-- C10: setZoomLevel stores its argument when it is truthy and stores 1
for every falsy argument (0, null, undefined, NaN); in particular a
zoom-level-change command carrying 0 sets the factor to 1, and the stored
factor is never 0. -/
theorem c10_setZoomLevel_falsy_default (z : MPE.JSVal) :
    (MPE.truthy z = true → MPE.setZoomLevel z = z) ∧
    (MPE.truthy z = false → MPE.setZoomLevel z = MPE.JSVal.num 1) ∧
    MPE.setZoomLevel (MPE.JSVal.num 0) = MPE.JSVal.num 1 ∧
    MPE.setZoomLevel z ≠ MPE.JSVal.num 0 := by
  refine ⟨fun h => by simp [MPE.setZoomLevel, h], fun h => by simp [MPE.setZoomLevel, h],
    by decide, ?_⟩
  cases hz : MPE.truthy z with
  | true =>
    simp only [MPE.setZoomLevel, hz, if_true]
    intro heq
    rw [heq] at hz
    simp [MPE.truthy] at hz
  | false => simp [MPE.setZoomLevel, hz]

/-- Witness for C10: zoom level 0 is stored as 1, zoom level 2 as 2. -/
theorem c10_setZoomLevel_falsy_default_witness :
    MPE.setZoomLevel (MPE.JSVal.num 0) = MPE.JSVal.num 1 ∧
    MPE.setZoomLevel (MPE.JSVal.num 2) = MPE.JSVal.num 2 :=
  ⟨(c10_setZoomLevel_falsy_default (MPE.JSVal.num 0)).2.1 (by decide),
    (c10_setZoomLevel_falsy_default (MPE.JSVal.num 2)).1 (by decide)⟩

/-- C1 (counterexample): the cursor handler's emitted topRatio is neither
clamped nor guarded against a single-line visible range. With the visible
range a single screen row (first = last = 3) and the cursor on it, the
code emits NaN where the claim demands 0; with the cursor on screen row 10
below a visible range 0..5, the code emits 2 where the clamped value of
the claim is 1. -/
theorem c1_topRatio_unclamped_cex :
    MPE.onDidChangeCursorPosition true 0 0 ⟨3, 3⟩ ⟨3, 3⟩
      = some ⟨3, MPE.JSNum.nan⟩ ∧
    MPE.topRatioClaimC1 3 3 3 = 0 ∧
    MPE.JSNum.nan ≠ MPE.JSNum.num 0 ∧
    MPE.onDidChangeCursorPosition true 0 0 ⟨10, 10⟩ ⟨0, 5⟩
      = some ⟨10, MPE.JSNum.num 2⟩ ∧
    MPE.topRatioClaimC1 10 0 5 = 1 ∧
    (2 : ℚ) ≠ 1 := by
  refine ⟨?_, ?_, by simp, ?_, ?_, by norm_num⟩ <;>
    norm_num [MPE.onDidChangeCursorPosition, MPE.jsDiv, MPE.topRatioClaimC1]

/-- C1 (amended): while scroll sync is enabled and not suppressed, the
emitted topRatio is the raw, unclamped quotient (cursorScreenRow -
firstVisibleScreenRow) / (lastVisibleScreenRow - firstVisibleScreenRow);
it lies in [0,1] whenever the cursor's screen row is within the visible
range and the range spans more than one row, and when the visible range is
a single screen row the division is by zero, so the emitted value is NaN
or a signed infinity — never an ordinary number, in particular not 0. -/
theorem c1_topRatio_amended (scrollSync : Bool) (now delay : ℤ)
    (ev : MPE.CursorEvent) (vp : MPE.ViewportState)
    (hs : scrollSync = true) (hd : ¬ now < delay) :
    (vp.firstVisibleScreenRow < vp.lastVisibleScreenRow →
      vp.firstVisibleScreenRow ≤ ev.newScreenRow →
      ev.newScreenRow ≤ vp.lastVisibleScreenRow →
      ∃ q : ℚ, MPE.onDidChangeCursorPosition scrollSync now delay ev vp
          = some ⟨ev.newBufferRow, MPE.JSNum.num q⟩ ∧
        q = ((ev.newScreenRow : ℚ) - (vp.firstVisibleScreenRow : ℚ))
            / ((vp.lastVisibleScreenRow : ℚ) - (vp.firstVisibleScreenRow : ℚ)) ∧
        0 ≤ q ∧ q ≤ 1) ∧
    (vp.lastVisibleScreenRow = vp.firstVisibleScreenRow →
      ∀ q : ℚ, MPE.onDidChangeCursorPosition scrollSync now delay ev vp
          ≠ some ⟨ev.newBufferRow, MPE.JSNum.num q⟩) := by
  subst hs
  constructor
  · intro hfl hfs hsl
    have hflq : (vp.firstVisibleScreenRow : ℚ) < (vp.lastVisibleScreenRow : ℚ) := by
      exact_mod_cast hfl
    have hfsq : (vp.firstVisibleScreenRow : ℚ) ≤ (ev.newScreenRow : ℚ) := by
      exact_mod_cast hfs
    have hslq : (ev.newScreenRow : ℚ) ≤ (vp.lastVisibleScreenRow : ℚ) := by
      exact_mod_cast hsl
    have hbpos : (0 : ℚ) < (vp.lastVisibleScreenRow : ℚ) - (vp.firstVisibleScreenRow : ℚ) := by
      linarith
    refine ⟨_, ?_, rfl, ?_, ?_⟩
    · simp [MPE.onDidChangeCursorPosition, hd, MPE.jsDiv, ne_of_gt hbpos]
    · apply div_nonneg (by linarith) (le_of_lt hbpos)
    · rw [div_le_one hbpos]
      linarith
  · intro heq q
    simp only [MPE.onDidChangeCursorPosition, Bool.not_true, Bool.false_eq_true, if_false,
      hd, if_neg hd, heq, sub_self, MPE.jsDiv, if_pos rfl]
    split_ifs <;> simp

/-- Witness for C1 (amended): cursor on screen row 2 inside visible range
0..4 emits the in-range ratio one half. -/
theorem c1_topRatio_amended_witness :
    ∃ q : ℚ, MPE.onDidChangeCursorPosition true 5 5 ⟨2, 7⟩ ⟨0, 4⟩
        = some ⟨7, MPE.JSNum.num q⟩ ∧
      q = (((2 : ℤ) : ℚ) - ((0 : ℤ) : ℚ)) / (((4 : ℤ) : ℚ) - ((0 : ℤ) : ℚ)) ∧
      0 ≤ q ∧ q ≤ 1 :=
  (c1_topRatio_amended true 5 5 ⟨2, 7⟩ ⟨0, 4⟩ rfl (by decide)).1
    (by decide) (by decide) (by decide)

/-- C2: when the engine render is not in presentation mode, the returned
dependency list is a permutation of the session's stored list and the
front matter carries no presentation flag, renderMarkdown posts an
incremental updateHTML patch and never a full reload. isArrayEqual is
modelled from the spec as order-insensitive comparison (it lives in the
external mume package). -/
theorem c2_perm_deps_incremental_patch (sess : MPE.RenderSession) (r : MPE.ParseResult)
    (tlc : ℕ) (uri : String)
    (hp : sess.isPreviewInPresentationMode = false)
    (hperm : r.JSAndCssFiles.Perm sess.JSAndCssFiles)
    (hy : r.yamlIsPresentationMode = false) :
    MPE.renderMarkdown sess (Except.ok r) tlc uri
      = (sess, [MPE.Effect.startParsingMarkdown,
          MPE.Effect.updateHTML r.html r.tocHTML tlc uri r.yamlId r.yamlClass]) ∧
    MPE.Effect.loadPreview ∉ (MPE.renderMarkdown sess (Except.ok r) tlc uri).2 := by
  have he : MPE.isArrayEqual r.JSAndCssFiles sess.JSAndCssFiles = true := by
    unfold MPE.isArrayEqual
    exact List.isPerm_iff.mpr hperm
  have h1 : MPE.renderMarkdown sess (Except.ok r) tlc uri
      = (sess, [MPE.Effect.startParsingMarkdown,
          MPE.Effect.updateHTML r.html r.tocHTML tlc uri r.yamlId r.yamlClass]) := by
    simp [MPE.renderMarkdown, hp, he, hy]
  refine ⟨h1, ?_⟩
  rw [h1]
  simp

/-- Witness for C2: the stored list is a-then-b, the render returns
b-then-a, and the decision is the incremental updateHTML patch. -/
theorem c2_perm_deps_incremental_patch_witness :
    MPE.renderMarkdown (⟨["a.css", "b.css"], false⟩ : MPE.RenderSession)
        (Except.ok (⟨("h".data), ("t".data), ["b.css", "a.css"], false,
          ("i".data), ("c".data)⟩ : MPE.ParseResult)) 3 ("doc.md")
      = ((⟨["a.css", "b.css"], false⟩ : MPE.RenderSession),
          [MPE.Effect.startParsingMarkdown,
            MPE.Effect.updateHTML ("h".data) ("t".data) 3 ("doc.md") ("i".data) ("c".data)]) :=
  (c2_perm_deps_incremental_patch (⟨["a.css", "b.css"], false⟩ : MPE.RenderSession)
    (⟨("h".data), ("t".data), ["b.css", "a.css"], false, ("i".data), ("c".data)⟩ :
      MPE.ParseResult) 3 ("doc.md") rfl (List.Perm.swap ("a.css") ("b.css") []) rfl).1

/-- C3 (counterexample): the parseMD promise in renderMarkdown has no
catch-handler, so a rejection produces no error notification at all: the
only emitted effect is the startParsingMarkdown message posted before the
parse, contradicting the claim that the rejection is reported to the user
as a visible error notification. -/
theorem c3_parse_rejection_unreported_cex :
    MPE.renderMarkdown (⟨["main.css"], false⟩ : MPE.RenderSession)
        (Except.error ("engine crashed")) 12 ("doc.md")
      = ((⟨["main.css"], false⟩ : MPE.RenderSession), [MPE.Effect.startParsingMarkdown]) ∧
    (MPE.renderMarkdown (⟨["main.css"], false⟩ : MPE.RenderSession)
        (Except.error ("engine crashed")) 12 ("doc.md")).2.any MPE.Effect.isNotifyErr
      = false := by
  constructor <;> rfl

/-- C3 (amended): if the asynchronous parse call rejects during
renderMarkdown (outside presentation mode), the session state — the stored
dependency list in particular — is left unchanged and no partial render is
applied; however the rejection is not reported: no error notification (and
no message beyond the initial startParsingMarkdown) is emitted, the
rejection being unhandled. -/
theorem c3_parse_rejection_amended (sess : MPE.RenderSession) (msg : String)
    (tlc : ℕ) (uri : String) (hp : sess.isPreviewInPresentationMode = false) :
    MPE.renderMarkdown sess (Except.error msg) tlc uri
      = (sess, [MPE.Effect.startParsingMarkdown]) := by
  simp [MPE.renderMarkdown, hp]

/-- Witness for C3 (amended) at a concrete session and rejection. -/
theorem c3_parse_rejection_amended_witness :
    MPE.renderMarkdown (⟨["a.css"], false⟩ : MPE.RenderSession)
        (Except.error ("boom")) 1 ("d.md")
      = ((⟨["a.css"], false⟩ : MPE.RenderSession), [MPE.Effect.startParsingMarkdown]) :=
  c3_parse_rejection_amended (⟨["a.css"], false⟩ : MPE.RenderSession) ("boom") 1 ("d.md") rfl

/-- C8: in the filename-collision branch of pasteImageFile, when the
filename's last dot sits at a positive offset, the produced filename is
stem, then underscore-prefixed random suffix, then the original extension;
the extension is preserved at the end, the name differs from the original,
and the description is the original stem. -/
theorem c8_paste_collision_preserves_ext (imageFileName rand : MPE.Str) (d : ℤ)
    (hd : MPE.lastIndexOfCh imageFileName '.' = d) (hpos : 0 < d) :
    (MPE.pasteCollision imageFileName rand).imageFileName
        = List.take d.toNat imageFileName ++ ('_' :: rand)
            ++ List.drop d.toNat imageFileName ∧
    List.drop d.toNat imageFileName
      <:+ (MPE.pasteCollision imageFileName rand).imageFileName ∧
    (MPE.pasteCollision imageFileName rand).imageFileName ≠ imageFileName ∧
    (MPE.pasteCollision imageFileName rand).description
        = List.take d.toNat imageFileName := by
  have h1 : MPE.pasteCollision imageFileName rand
      = ⟨List.take d.toNat imageFileName ++ ('_' :: rand)
            ++ List.drop d.toNat imageFileName,
          List.take d.toNat imageFileName⟩ := by
    unfold MPE.pasteCollision
    rw [hd, if_pos hpos]
  rw [h1]
  refine ⟨rfl, ?_, ?_, rfl⟩
  · exact List.suffix_append _ _
  · intro heq
    have hlen := congrArg List.length heq
    simp [List.length_append, List.length_take, List.length_drop] at hlen
    omega

/-- Witness for C8: pasting over an existing photo.png produces
photo_k3j9q.png, which ends in .png and differs from photo.png, with
description photo. -/
theorem c8_paste_collision_preserves_ext_witness :
    MPE.lastIndexOfCh ("photo.png".data) '.' = 5 ∧
    ((MPE.pasteCollision ("photo.png".data) ("k3j9q".data)).imageFileName
        = List.take (5 : ℤ).toNat ("photo.png".data) ++ ('_' :: ("k3j9q".data))
            ++ List.drop (5 : ℤ).toNat ("photo.png".data) ∧
      List.drop (5 : ℤ).toNat ("photo.png".data)
        <:+ (MPE.pasteCollision ("photo.png".data) ("k3j9q".data)).imageFileName ∧
      (MPE.pasteCollision ("photo.png".data) ("k3j9q".data)).imageFileName
        ≠ ("photo.png".data) ∧
      (MPE.pasteCollision ("photo.png".data) ("k3j9q".data)).description
        = List.take (5 : ℤ).toNat ("photo.png".data)) :=
  ⟨by decide,
    c8_paste_collision_preserves_ext ("photo.png".data) ("k3j9q".data) 5 (by decide) (by decide)⟩

/-- The animation always ends with the scroll offset exactly at the
target, whatever the starting offset and duration. -/
theorem animateFinal (st : ℚ) : ∀ n : ℕ, ∀ d : ℤ, d.toNat ≤ n → ∀ cur : ℚ,
    (MPE.animate st cur d).1 = st := by
  intro n
  induction n with
  | zero =>
    intro d hd cur
    rw [MPE.animate]
    have h0 : d ≤ 0 := by omega
    rw [if_pos h0]
  | succ n ih =>
    intro d hd cur
    rw [MPE.animate]
    by_cases h0 : d ≤ 0
    · rw [if_pos h0]
    · rw [if_neg h0]
      by_cases he : cur + (st - cur) / (d : ℚ) * 10 = st
      · rw [if_pos he]
        exact he
      · rw [if_neg he]
        exact ih (d - 10) (by omega) _

/-- The animation takes at most n + 1 timer ticks when its duration is at
most 10 * n (the tick length is 10). -/
theorem animateTickBound (st : ℚ) : ∀ n : ℕ, ∀ d : ℤ, d ≤ 10 * (n : ℤ) → ∀ cur : ℚ,
    (MPE.animate st cur d).2 ≤ n + 1 := by
  intro n
  induction n with
  | zero =>
    intro d hd cur
    rw [MPE.animate]
    have h0 : d ≤ 0 := by omega
    rw [if_pos h0]
  | succ n ih =>
    intro d hd cur
    rw [MPE.animate]
    by_cases h0 : d ≤ 0
    · rw [if_pos h0]
      show (1 : ℕ) ≤ n + 1 + 1
      omega
    · rw [if_neg h0]
      by_cases he : cur + (st - cur) / (d : ℚ) * 10 = st
      · rw [if_pos he]
        show (1 : ℕ) ≤ n + 1 + 1
        omega
      · rw [if_neg he]
        have hrec := ih (d - 10) (by omega) (cur + (st - cur) / (d : ℚ) * 10)
        show (MPE.animate st (cur + (st - cur) / (d : ℚ) * 10) (d - 10)).2 + 1 ≤ n + 1 + 1
        omega

/-- C9: every scrollToBufferPosition animation terminates with the offset
exactly at the computed target screenRow * lineHeight - viewHeight / 2,
taking at most 13 ticks of the fixed 120-duration/10-tick schedule (the
early-exit stops it the moment a stepped offset equals the target); and
the call installs its own fresh timer after cancelling the pending timer
of any in-flight animation, so at most one animation is active. -/
theorem c9_scroll_animation_terminates (sess : MPE.ScrollSession) (now row : ℤ) (fresh : ℕ)
    (screenRow lineHeight viewHeight curTop : ℚ) (h : ¬ row < 0) :
    ∃ sess1 cancelled anim,
      MPE.scrollToBufferPosition sess now row fresh screenRow lineHeight viewHeight curTop
        = some (sess1, cancelled, anim) ∧
      anim.1 = screenRow * lineHeight - viewHeight / 2 ∧
      anim.2 ≤ 13 ∧
      sess1.scrollTimeout = some fresh ∧
      (∀ t : ℕ, sess.scrollTimeout = some t → cancelled = [t]) ∧
      (sess.scrollTimeout = none → cancelled = []) := by
  refine ⟨⟨now + 500, some fresh⟩,
    (match sess.scrollTimeout with
      | some t => [t]
      | none => []),
    MPE.animate (screenRow * lineHeight - viewHeight / 2) curTop 120,
    ?_, ?_, ?_, rfl, ?_, ?_⟩
  · unfold MPE.scrollToBufferPosition
    rw [if_neg h]
  · exact animateFinal _ 120 120 (by omega) _
  · exact animateTickBound _ 12 120 (by omega) _
  · intro t ht
    rw [ht]
  · intro ht
    rw [ht]

/-- Witness for C9 at a concrete session with a pending timer. -/
theorem c9_scroll_animation_terminates_witness :
    ∃ sess1 cancelled anim,
      MPE.scrollToBufferPosition (⟨0, some 7⟩ : MPE.ScrollSession) 100 5 9 3 2 4 0
        = some (sess1, cancelled, anim) ∧
      anim.1 = 3 * 2 - 4 / 2 ∧
      anim.2 ≤ 13 ∧
      sess1.scrollTimeout = some 9 ∧
      (∀ t : ℕ, (⟨0, some 7⟩ : MPE.ScrollSession).scrollTimeout = some t → cancelled = [t]) ∧
      ((⟨0, some 7⟩ : MPE.ScrollSession).scrollTimeout = none → cancelled = []) :=
  c9_scroll_animation_terminates (⟨0, some 7⟩ : MPE.ScrollSession) 100 5 9 3 2 4 0 (by decide)

/-- C4 (counterexample): the fallback search of setUploadedImageURL scans
the window in increasing line order from insertionLine - 20, not outward
from the insertion line. With the insertion line 20 hint-free, a hint on
line 5 (distance 15) and a hint on line 22 (distance 2), the code replaces
the token on line 5 and leaves the strictly nearer line 22 untouched,
although outward scanning would reach line 22 first. -/
theorem c4_upload_hint_scan_cex :
    MPE.setUploadedImageURL
        (((List.replicate 41 ("x".data)).set 5 ("a HINT b".data)).set 22 ("c HINT d".data))
        ("img.png".data) ("URL".data) ("HINT".data) 20
      = some ((((List.replicate 41 ("x".data)).set 5 ("a HINT b".data)).set 22
          ("c HINT d".data)).set 5 ("a ![img](URL) b".data)) ∧
    MPE.containsSub
        (List.getD ((((List.replicate 41 ("x".data)).set 5 ("a HINT b".data)).set 22
          ("c HINT d".data)).set 5 ("a ![img](URL) b".data)) 22 [])
        ("HINT".data) = true ∧
    ((22 : ℤ) - 20 < 20 - 5) := by
  refine ⟨by decide, by decide, by decide⟩

/-- If for fuel consecutive rows starting at i every row is inside the
document and free of the hint, the search loop is a no-op. -/
theorem searchLoopNoop (hint withStr : MPE.Str) :
    ∀ (fuel : ℕ) (lines : List MPE.Line) (i : ℤ),
      (∀ t : ℤ, i ≤ t → t < i + fuel →
        0 ≤ t ∧ t < (lines.length : ℤ) ∧
          MPE.containsSub (List.getD lines t.toNat []) hint = false) →
      MPE.searchLoop hint withStr lines i fuel = some lines := by
  intro fuel
  induction fuel with
  | zero => intro lines i hcond; rfl
  | succ fuel ih =>
    intro lines i hcond
    have h0 := hcond i le_rfl (by push_cast; omega)
    have hrh : MPE.replaceHint lines i hint withStr = some (lines, false) := by
      unfold MPE.replaceHint
      rw [if_pos ⟨h0.1, h0.2.1⟩, if_neg (by rw [h0.2.2]; exact Bool.false_ne_true)]
    unfold MPE.searchLoop
    rw [hrh]
    exact ih lines (i + 1) (fun t ht1 ht2 => hcond t (by omega) (by push_cast at ht2 ⊢; omega))

/-- If rows i .. j-1 are inside the document and free of the hint and row
j (inside the document, within fuel rows of i) contains it, the search
loop replaces the hint on row j. -/
theorem searchLoopHit (hint withStr : MPE.Str) :
    ∀ (fuel : ℕ) (lines : List MPE.Line) (i j : ℤ),
      i ≤ j → j < i + fuel →
      (∀ t : ℤ, i ≤ t → t < j →
        0 ≤ t ∧ t < (lines.length : ℤ) ∧
          MPE.containsSub (List.getD lines t.toNat []) hint = false) →
      0 ≤ j → j < (lines.length : ℤ) →
      MPE.containsSub (List.getD lines j.toNat []) hint = true →
      MPE.searchLoop hint withStr lines i fuel
        = some (List.set lines j.toNat
            (MPE.replaceFirstSub (List.getD lines j.toNat []) hint withStr)) := by
  intro fuel
  induction fuel with
  | zero =>
    intro lines i j hij hjf hpre hj0 hjl hcont
    exfalso
    push_cast at hjf
    omega
  | succ fuel ih =>
    intro lines i j hij hjf hpre hj0 hjl hcont
    unfold MPE.searchLoop
    by_cases hie : i = j
    · subst hie
      have hrh : MPE.replaceHint lines i hint withStr
          = some (List.set lines i.toNat
              (MPE.replaceFirstSub (List.getD lines i.toNat []) hint withStr), true) := by
        unfold MPE.replaceHint
        rw [if_pos ⟨hj0, hjl⟩, if_pos hcont]
      rw [hrh]
    · have hilt : i < j := lt_of_le_of_ne hij hie
      have h0 := hpre i le_rfl hilt
      have hrh : MPE.replaceHint lines i hint withStr = some (lines, false) := by
        unfold MPE.replaceHint
        rw [if_pos ⟨h0.1, h0.2.1⟩, if_neg (by rw [h0.2.2]; exact Bool.false_ne_true)]
      rw [hrh]
      exact ih lines (i + 1) j (by omega) (by push_cast at hjf ⊢; omega)
        (fun t ht1 ht2 => hpre t (by omega) ht2) hj0 hjl hcont

/-- C4 (amended): setUploadedImageURL first attempts replacement on the
recorded insertion line; if the token is not there, it scans lines
insertionLine - 20 through insertionLine + 20 in increasing order and
replaces the token in the lowest-numbered matching line of the window (not
the line nearest the insertion line); when the whole window lies inside
the document and no line of it contains the token, it is a silent no-op.
(When the search runs past the document bounds before finding the token,
the handler instead throws — the out-of-bounds line read is undefined —
which the in-bounds hypotheses below exclude.) -/
theorem c4_upload_hint_scan_amended (lines : List MPE.Line) (imageFileName url hint : MPE.Str)
    (row : ℤ) (hlo : 20 ≤ row) (hhi : row + 20 < (lines.length : ℤ)) :
    (MPE.containsSub (List.getD lines row.toNat []) hint = true →
      MPE.setUploadedImageURL lines imageFileName url hint row
        = some (List.set lines row.toNat
            (MPE.replaceFirstSub (List.getD lines row.toNat []) hint
              (MPE.uploadWithStr imageFileName url)))) ∧
    (MPE.containsSub (List.getD lines row.toNat []) hint = false →
      ∀ j : ℤ, row - 20 ≤ j → j ≤ row + 20 →
        MPE.containsSub (List.getD lines j.toNat []) hint = true →
        (∀ t : ℤ, row - 20 ≤ t → t < j →
          MPE.containsSub (List.getD lines t.toNat []) hint = false) →
        MPE.setUploadedImageURL lines imageFileName url hint row
          = some (List.set lines j.toNat
              (MPE.replaceFirstSub (List.getD lines j.toNat []) hint
                (MPE.uploadWithStr imageFileName url)))) ∧
    ((∀ t : ℤ, row - 20 ≤ t → t ≤ row + 20 →
        MPE.containsSub (List.getD lines t.toNat []) hint = false) →
      MPE.setUploadedImageURL lines imageFileName url hint row = some lines) := by
  have hrowb : 0 ≤ row ∧ row < (lines.length : ℤ) := ⟨by omega, by omega⟩
  refine ⟨?_, ?_, ?_⟩
  · intro hc
    have hrh : MPE.replaceHint lines row hint (MPE.uploadWithStr imageFileName url)
        = some (List.set lines row.toNat
            (MPE.replaceFirstSub (List.getD lines row.toNat []) hint
              (MPE.uploadWithStr imageFileName url)), true) := by
      unfold MPE.replaceHint
      rw [if_pos hrowb, if_pos hc]
    unfold MPE.setUploadedImageURL
    rw [hrh]
  · intro hc j hj1 hj2 hcj hpre
    have hrh : MPE.replaceHint lines row hint (MPE.uploadWithStr imageFileName url)
        = some (lines, false) := by
      unfold MPE.replaceHint
      rw [if_pos hrowb, if_neg (by rw [hc]; exact Bool.false_ne_true)]
    unfold MPE.setUploadedImageURL
    rw [hrh]
    exact searchLoopHit hint (MPE.uploadWithStr imageFileName url) 41 lines (row - 20) j
      hj1 (by push_cast; omega)
      (fun t ht1 ht2 => ⟨by omega, by omega, hpre t ht1 ht2⟩)
      (by omega) (by omega) hcj
  · intro hall
    have hrh : MPE.replaceHint lines row hint (MPE.uploadWithStr imageFileName url)
        = some (lines, false) := by
      unfold MPE.replaceHint
      rw [if_pos hrowb, if_neg (by rw [hall row (by omega) (by omega)]; exact Bool.false_ne_true)]
    unfold MPE.setUploadedImageURL
    rw [hrh]
    exact searchLoopNoop hint (MPE.uploadWithStr imageFileName url) 41 lines (row - 20)
      (fun t ht1 ht2 => ⟨by omega, by omega, hall t ht1 (by push_cast at ht2; omega)⟩)

/-- Witness for C4 (amended): the token on the insertion line itself is
replaced there. -/
theorem c4_upload_hint_scan_amended_witness :
    MPE.setUploadedImageURL (List.replicate 41 ("a HINT b".data)) ("img.png".data)
        ("URL".data) ("HINT".data) 20
      = some (List.set (List.replicate 41 ("a HINT b".data)) (20 : ℤ).toNat
          (MPE.replaceFirstSub (List.getD (List.replicate 41 ("a HINT b".data)) (20 : ℤ).toNat [])
            ("HINT".data) (MPE.uploadWithStr ("img.png".data) ("URL".data)))) :=
  (c4_upload_hint_scan_amended (List.replicate 41 ("a HINT b".data)) ("img.png".data)
    ("URL".data) ("HINT".data) 20 (by decide) (by decide)).1 (by decide)
